import Mathlib

/-!
Verification development for the IdempotKit repository: a shallow embedding
of the idempotency engine (`src/core/src/engine.ts` — `IdempotencyEngine`),
its in-memory store (`src/core/src/__tests__/mocks/memory-store.ts`), and the
Redis adapter (`src/adapters/redis/src/lua.ts` plus the adapter class).

Conventions of the embedding:
- Promises are collapsed into pure state-passing functions: one `execute`
  call is a function of the store state and of the handler's eventual
  outcome; wall-clock timestamps are opaque strings passed in.
- Thrown JavaScript errors are `Except` errors of the `Err` type, whose
  constructors mirror the classes of `src/core/src/errors.ts`.  Message
  texts are abbreviated (they are not claim-relevant), the class name and
  the extra fields are modelled exactly.
- The `setTimeout` expiry timers of the memory store (lock TTL, retention)
  are not modelled: every claim below is about call sequences that finish
  before any timer fires.
-/

namespace IdempotKit

/-! ## Generic list utilities (association maps, substring search, stable sort) -/

/-- `starts p l` holds when `p` is an initial segment of `l`
(the character-list analogue of `String.startsWith`). -/
def starts : List Char → List Char → Bool
  | [], _ => true
  | _ :: _, [] => false
  | p :: ps, c :: cs => p == c && starts ps cs

/-- `sub p l`: `p` occurs contiguously somewhere inside `l`
(the semantics of a JavaScript substring regex test). -/
def sub (p : List Char) : List Char → Bool
  | [] => starts p []
  | c :: cs => starts p (c :: cs) || sub p cs

/-- `anyTail f l` holds when `f` accepts some suffix of `l`. -/
def anyTail (f : List Char → Bool) : List Char → Bool
  | [] => f []
  | c :: cs => f (c :: cs) || anyTail f (c :: cs).tail

/-- JavaScript whitespace for `String.prototype.trim` (the characters that
occur in the repository's inputs; the full JS set also has exotic Unicode
spaces). -/
def isJsSpace (c : Char) : Bool :=
  c == ' ' || c == '\t' || c == '\n' || c == '\r' || c == '\x0b' || c == '\x0c'

/-- Model of JavaScript `String.prototype.trim`: drop whitespace from both
ends. -/
def jsTrim (s : String) : String :=
  String.mk (((s.data.dropWhile isJsSpace).reverse.dropWhile isJsSpace).reverse)

/-- Stable insertion used by `sortBy`: `x` is placed before the first element
strictly greater than it, hence after all elements comparing equal to it —
the placement JavaScript's stable `Array.prototype.sort` gives. -/
def insertBy (cmp : α → α → Ordering) (x : α) : List α → List α
  | [] => [x]
  | y :: ys => if cmp x y = Ordering.lt then x :: y :: ys else y :: insertBy cmp x ys

/-- Stable sort by a comparator, modelling `Array.prototype.sort(cmp)`. -/
def sortBy (cmp : α → α → Ordering) (l : List α) : List α :=
  l.foldl (fun acc x => insertBy cmp x acc) []

/-! ## JSON values and the fingerprint canonicalization
(`IdempotencyEngine.fingerprint`, `src/core/src/engine.ts` lines 261-279) -/

/-- Structured payloads: the JSON-representable values `fingerprint` receives.
Object fields are kept in insertion order, as JavaScript objects do for
string keys. -/
inductive JValue where
  | null : JValue
  | bool (b : Bool) : JValue
  | num (n : Int) : JValue
  | str (s : String) : JValue
  | arr (xs : List JValue) : JValue
  | obj (fields : List (String × JValue)) : JValue

/-- Lexicographic comparison of character lists by a per-character comparator. -/
def cmpBy (f : Char → Char → Ordering) : List Char → List Char → Ordering
  | [], [] => Ordering.eq
  | [], _ :: _ => Ordering.lt
  | _ :: _, [] => Ordering.gt
  | a :: as, b :: bs =>
    match f a b with
    | Ordering.eq => cmpBy f as bs
    | o => o

/-- Model of JavaScript `String.prototype.localeCompare` under the default
(ICU root) locale, restricted to ASCII strings: the primary level compares
case-insensitively character by character; when the primary level ties, the
tertiary level orders a lowercase letter before its uppercase form (ICU root
collation, e.g. `"a".localeCompare("B") < 0` in Node.js while `"B" < "a"` in
code-unit order). -/
def localeCompare (a b : String) : Ordering :=
  match cmpBy (fun x y => compare x.toLower y.toLower) a.data b.data with
  | Ordering.eq =>
    cmpBy (fun x y => compare (if x.isUpper then 1 else 0) (if y.isUpper then 1 else 0))
      a.data b.data
  | o => o

/-- The comparator `([a], [b]) => a.localeCompare(b)` the source passes to
`Object.entries(value).sort`. -/
def cmpPair (a b : String × JValue) : Ordering := localeCompare a.1 b.1

end IdempotKit

mutual

/-- `normalize` from `IdempotencyEngine.fingerprint`: recursively sort object
keys with `localeCompare`.  The source sorts the entries and then recurses
into the values; here the recursion into the values happens first (so the
recursion is structural) and the stable key-only sort is applied after, which
yields the same list because the sort consults only the keys, which the map
preserves along with the relative order. -/
def IdempotKit.normalize : IdempotKit.JValue → IdempotKit.JValue
  | IdempotKit.JValue.null => IdempotKit.JValue.null
  | IdempotKit.JValue.bool b => IdempotKit.JValue.bool b
  | IdempotKit.JValue.num n => IdempotKit.JValue.num n
  | IdempotKit.JValue.str s => IdempotKit.JValue.str s
  | IdempotKit.JValue.arr xs => IdempotKit.JValue.arr (IdempotKit.normalizeList xs)
  | IdempotKit.JValue.obj fs =>
    IdempotKit.JValue.obj (IdempotKit.sortBy IdempotKit.cmpPair (IdempotKit.normalizeFields fs))

/-- Elementwise `normalize` of an array's elements. -/
def IdempotKit.normalizeList : List IdempotKit.JValue → List IdempotKit.JValue
  | [] => []
  | x :: xs => IdempotKit.normalize x :: IdempotKit.normalizeList xs

/-- `normalize` of each value of an object's fields, keys untouched. -/
def IdempotKit.normalizeFields :
    List (String × IdempotKit.JValue) → List (String × IdempotKit.JValue)
  | [] => []
  | (k, v) :: fs => (k, IdempotKit.normalize v) :: IdempotKit.normalizeFields fs

end

mutual

/-- `JSON.stringify` of a payload: compact serialization, fields and elements
in list order.  String escaping is not modelled (no key or value used below
contains a character JSON would escape). -/
def IdempotKit.serialize : IdempotKit.JValue → String
  | IdempotKit.JValue.null => "null"
  | IdempotKit.JValue.bool true => "true"
  | IdempotKit.JValue.bool false => "false"
  | IdempotKit.JValue.num n => toString n
  | IdempotKit.JValue.str s => "\"" ++ s ++ "\""
  | IdempotKit.JValue.arr xs => "[" ++ IdempotKit.serializeList xs ++ "]"
  | IdempotKit.JValue.obj fs => "\x7b" ++ IdempotKit.serializeFields fs ++ "\x7d"

/-- Comma-separated serialization of array elements. -/
def IdempotKit.serializeList : List IdempotKit.JValue → String
  | [] => ""
  | [x] => IdempotKit.serialize x
  | x :: y :: xs =>
    IdempotKit.serialize x ++ "," ++ IdempotKit.serializeList (y :: xs)

/-- Comma-separated serialization of object fields as `"key":value`. -/
def IdempotKit.serializeFields : List (String × IdempotKit.JValue) → String
  | [] => ""
  | [(k, v)] => "\"" ++ k ++ "\":" ++ IdempotKit.serialize v
  | (k, v) :: f :: fs =>
    "\"" ++ k ++ "\":" ++ IdempotKit.serialize v ++ "," ++
      IdempotKit.serializeFields (f :: fs)

end

namespace IdempotKit

/-- The canonical text `fingerprint` hashes:
`JSON.stringify(normalize(data))`.  The hash itself
(`createHash(alg).update(text).digest("hex")`) is kept abstract: it is a
function of this text, so equal canonical texts give byte-identical hex
fingerprints. -/
def canonicalText (data : JValue) : String := serialize (normalize data)

end IdempotKit

mutual

/-- Modelled from the spec: canonicalization whose "mappings are emitted with
keys in lexicographic (locale-agnostic) ascending order" — identical to
`normalize` except that keys are ordered by code-unit comparison instead of
`localeCompare`.  Used to compare the spec's words with the source. -/
def IdempotKit.normalizeLex : IdempotKit.JValue → IdempotKit.JValue
  | IdempotKit.JValue.null => IdempotKit.JValue.null
  | IdempotKit.JValue.bool b => IdempotKit.JValue.bool b
  | IdempotKit.JValue.num n => IdempotKit.JValue.num n
  | IdempotKit.JValue.str s => IdempotKit.JValue.str s
  | IdempotKit.JValue.arr xs => IdempotKit.JValue.arr (IdempotKit.normalizeLexList xs)
  | IdempotKit.JValue.obj fs =>
    IdempotKit.JValue.obj
      (IdempotKit.sortBy (fun a b => compare a.1 b.1) (IdempotKit.normalizeLexFields fs))

/-- Elementwise `normalizeLex` of an array's elements. -/
def IdempotKit.normalizeLexList : List IdempotKit.JValue → List IdempotKit.JValue
  | [] => []
  | x :: xs => IdempotKit.normalizeLex x :: IdempotKit.normalizeLexList xs

/-- `normalizeLex` of each value of an object's fields. -/
def IdempotKit.normalizeLexFields :
    List (String × IdempotKit.JValue) → List (String × IdempotKit.JValue)
  | [] => []
  | (k, v) :: fs => (k, IdempotKit.normalizeLex v) :: IdempotKit.normalizeLexFields fs

end

namespace IdempotKit

/-- Canonical text under the spec-modelled lexicographic ordering. -/
def canonicalTextLex (data : JValue) : String := serialize (normalizeLex data)

/-! ## Audit events and metadata redaction
(`src/core/src/types.ts` `AuditEvent`, `IdempotencyEngine._audit`) -/

/-- The `action` tags of `AuditEvent` (`src/core/src/types.ts` lines 133-142),
including `miss`, which the type declares. -/
inductive Action where
  | hit : Action
  | miss : Action
  | acquired : Action
  | locked : Action
  | fingerprint_mismatch : Action
  | stored : Action
  | error : Action
  | timeout : Action
  | lock_released : Action
deriving DecidableEq, Repr

/-- Metadata mappings (`Record<string, unknown>`), entries in insertion
order; the values are opaque and modelled as strings. -/
abbrev Meta : Type := List (String × String)

/-- The error classes of `src/core/src/errors.ts` that the engine and the
stores raise.  `internal` is `IdempotencyInternalError` (the spec's
`StoreError` kind) with its optional `cause`, represented here by the
cause's message; `generic` is a plain JavaScript `Error`. -/
inductive Err where
  | invalidKey (msg : String) : Err
  | invalidRetention (msg : String) : Err
  | fingerprintMismatch (msg : String) (storedFingerprint : Option String) : Err
  | operationInProgress (msg : String) : Err
  | handlerTimeout (msg : String) : Err
  | internal (msg : String) (causeMsg : Option String) : Err
  | generic (msg : String) : Err
deriving DecidableEq, Repr

/-- `err.message`. -/
def Err.message : Err → String
  | Err.invalidKey m => m
  | Err.invalidRetention m => m
  | Err.fingerprintMismatch m _ => m
  | Err.operationInProgress m => m
  | Err.handlerTimeout m => m
  | Err.internal m _ => m
  | Err.generic m => m

/-- `err.name`, as each error class sets it. -/
def Err.name : Err → String
  | Err.invalidKey _ => "InvalidIdempotencyKeyError"
  | Err.invalidRetention _ => "InvalidRetentionError"
  | Err.fingerprintMismatch _ _ => "FingerprintMismatchError"
  | Err.operationInProgress _ => "OperationInProgressError"
  | Err.handlerTimeout _ => "HandlerTimeoutError"
  | Err.internal _ _ => "IdempotencyInternalError"
  | Err.generic _ => "Error"

/-- Whether an error is of the spec's `StoreError` kind, i.e. the
`IdempotencyInternalError` class that "wraps the original cause". -/
def Err.isStoreErrorKind : Err → Bool
  | Err.internal _ _ => true
  | _ => false

/-- Lowercased characters of a string (the effect of the `/i` regex flag). -/
def lcChars (s : String) : List Char := s.data.map Char.toLower

/-- Case-insensitive substring test: does `pat` occur inside `s`?  Models
`s.match(/pat/i) !== null` for a literal pattern. -/
def containsCI (s pat : String) : Bool := sub (lcChars pat) (lcChars s)

/-- Does `full`, then at most one arbitrary character, then `name` occur at
the head of `l`?  The `full.?name` alternative of the redaction regex
(`.` is modelled as matching any character). -/
def fullNameAt (l : List Char) : Bool :=
  starts "full".data l &&
    (starts "name".data (l.drop 4) || starts "name".data (l.drop 5))

/-- Case-insensitive test for the `full.?name` alternative anywhere in `s`. -/
def fullNameCI (s : String) : Bool := anyTail fullNameAt (lcChars s)

/-- The redaction predicate of `IdempotencyEngine._audit`: the semantics of
`k.match(/(password|token|secret|card|cvv|pin|ssn|full.?name|email|phone)/i)`
— substring, case-insensitive. -/
def sensitiveMatch (k : String) : Bool :=
  containsCI k "password" || containsCI k "token" || containsCI k "secret" ||
    containsCI k "card" || containsCI k "cvv" || containsCI k "pin" ||
    containsCI k "ssn" || fullNameCI k || containsCI k "email" ||
    containsCI k "phone"

/-- The metadata filter of `_audit`:
`Object.entries(metadata).filter(([k]) => !k.match(...))`. -/
def redactMeta (md : Meta) : Meta :=
  md.filter (fun kv => !sensitiveMatch kv.1)

/-- An emitted audit event (`src/core/src/types.ts` lines 130-149). -/
structure AuditEvent where
  timestamp : String
  key : String
  action : Action
  fingerprint : Option String
  storedFingerprint : Option String
  metadata : Option Meta
deriving DecidableEq, Repr

/-- The `safeEvent` `_audit` builds from a raw event: same fields, metadata
passed through `redactMeta` when present. -/
def redactEvent (e : AuditEvent) : AuditEvent :=
  AuditEvent.mk e.timestamp e.key e.action e.fingerprint e.storedFingerprint
    (e.metadata.map redactMeta)

/-! ## The audit dispatcher (`IdempotencyEngine._audit`, engine lines 284-314) -/

/-- Behaviour of an audit sink: whether invoking it throws. -/
structure SinkSpec where
  throws : Bool
deriving DecidableEq, Repr

/-- Audit-relevant behaviour of the store: whether it implements the optional
`recordAudit`, and whether that call throws. -/
structure AuditStoreSpec where
  hasRecordAudit : Bool
  recordThrows : Bool
deriving DecidableEq, Repr

/-- Observable outcome of one `_audit` call: the event each party received
(`none` = not invoked), and whether the call threw to its caller. -/
structure AuditOutcome where
  sinkReceived : Option AuditEvent
  recordReceived : Option AuditEvent
  threw : Bool
deriving DecidableEq, Repr

/-- `IdempotencyEngine._audit`: build the redacted `safeEvent`, invoke the
active sink (the call-level override when present, else the engine-level
sink — the engine resolves `options?.onAudit ?? this.options.onAudit` at
each call site), then `store.recordAudit?.(safeEvent)`; the whole body is
wrapped in `try ... catch {}`, so a throw from the sink skips the
`recordAudit` step and nothing ever propagates. -/
def auditDispatch (engineSink : SinkSpec) (callSink : Option SinkSpec)
    (store : AuditStoreSpec) (ev : AuditEvent) : AuditOutcome :=
  let active := callSink.getD engineSink
  let safe := redactEvent ev
  if active.throws then
    AuditOutcome.mk (some safe) none false
  else if store.hasRecordAudit then
    AuditOutcome.mk (some safe) (some safe) false
  else
    AuditOutcome.mk (some safe) none false

/-! ## The store contract and `IdempotencyEngine.execute`
(`src/core/src/engine.ts` lines 76-247) -/

/-- The three outcomes of `atomicCheckAndLock`
(`src/core/src/types.ts` lines 68-81); `V` is the opaque result type. -/
inductive CheckStatus (V : Type) where
  | exists_ (fingerprint : String) (result : V) (createdAt : String) : CheckStatus V
  | locked : CheckStatus V
  | acquired : CheckStatus V
deriving DecidableEq, Repr

/-- A store implementation over state type `σ`: the `IdempotencyStore`
contract.  `atomicCheckAndLock` and `commitResult` may throw (`Except.error`);
`releaseLock` is total, per the contract ("must not throw") and both
implementations in the repository (the memory mock never throws, the Redis
adapter catches all failures).  An absent optional `releaseLock` is the
identity. -/
structure StoreModel (σ V : Type) where
  atomicCheckAndLock : σ → String → String → Nat → Except Err (CheckStatus V × σ)
  commitResult : σ → String → String → V → Nat → Except Err σ
  releaseLock : σ → String → σ

/-- Engine configuration after construction (`EngineOptions`; the audit sink
and fingerprint algorithm play no role in the control flow modelled here).
`keyPfx` models the `keyPrefix` option. -/
structure EngineCfg where
  lockTtl : Nat
  retention : Nat
  keyPfx : String
deriving DecidableEq, Repr

/-- Per-call options (`ExecuteOptions`); the call-level `onAudit` override
selects which sink `auditDispatch` invokes and does not alter the control
flow, so it is not repeated here. -/
structure ExecuteOptions where
  handlerTimeout : Option Nat
  retentionOverride : Option Nat
  metadata : Option Meta
deriving DecidableEq, Repr

/-- How the race `Promise.race([handler(), timer])` settles: the handler
resolves with a value, rejects with an error, or the timer fires first
(`HandlerTimeoutError`). -/
inductive HandlerOutcome (V : Type) where
  | success (v : V) : HandlerOutcome V
  | failure (e : Err) : HandlerOutcome V
  | timedOut : HandlerOutcome V
deriving DecidableEq, Repr

/-- Everything one `execute` call produces: the returned value or thrown
error, the final store state, the audit events delivered (already redacted —
see `auditDispatch`, which never throws and has no other effect on the
call), and how many times the handler was invoked. -/
structure ExecResult (σ V : Type) where
  result : Except Err V
  state : σ
  trace : List AuditEvent
  handlerRuns : Nat

/-- An audit event as `_audit` emits it: metadata redacted when present. -/
def mkEvent (ts fullKey : String) (a : Action) (fp storedFp : Option String)
    (md : Option Meta) : AuditEvent :=
  AuditEvent.mk ts fullKey a fp storedFp (md.map redactMeta)

/-- JavaScript object-spread update `{...md, k: v}`: an existing key is
overwritten in place, a new key is appended. -/
def setKey (md : Meta) (k v : String) : Meta :=
  if md.any (fun kv => kv.1 == k) then
    md.map (fun kv => if kv.1 == k then (k, v) else kv)
  else
    md ++ [(k, v)]

/-- The audit action of the `catch` block:
`err instanceof HandlerTimeoutError ? "timeout" : "error"`. -/
def failAction : Err → Action
  | Err.handlerTimeout _ => Action.timeout
  | _ => Action.error

/-- The event of the `catch` block: caller metadata spread together with
`error` (the message) and `errorCode` (the error name), then redacted. -/
def failEvent (ts fullKey fp : String) (md : Option Meta) (e : Err) : AuditEvent :=
  AuditEvent.mk ts fullKey (failAction e) (some fp) none
    (some (redactMeta (setKey (setKey (md.getD []) "error" e.message) "errorCode" e.name)))

/-- `IdempotencyEngine.execute` (engine lines 76-247), one call as a function
of the store state and the handler's outcome:
1. reject empty/whitespace keys; 2. `fullKey := keyPrefix + key.trim()`;
3. validate `handlerTimeout` (default 30000) and the retention override
(default: engine retention); 4. `atomicCheckAndLock`; branch on
`exists` (fingerprint check → `fingerprint_mismatch` throw or `hit` return),
`locked` (throw `OperationInProgressError`), `acquired` (run the handler
under the timer race, commit on success, audit `stored` or the failure, and
in `finally` release the lock and audit `lock_released`). -/
def execute {σ V : Type} (M : StoreModel σ V) (s : σ) (cfg : EngineCfg)
    (key fingerprint : String) (handler : HandlerOutcome V)
    (opts : ExecuteOptions) (now : String) : ExecResult σ V :=
  if jsTrim key = "" then
    ExecResult.mk (Except.error (Err.invalidKey "idempotency key must be a non-empty string"))
      s [] 0
  else
    let fullKey := cfg.keyPfx ++ jsTrim key
    let hTimeout := opts.handlerTimeout.getD 30000
    if hTimeout < 50 || 300000 < hTimeout then
      ExecResult.mk (Except.error (Err.generic "handlerTimeout must be 50ms to 5m")) s [] 0
    else
      let retentionMs := opts.retentionOverride.getD cfg.retention
      if retentionMs < 86400000 then
        ExecResult.mk (Except.error (Err.invalidRetention "retentionOverride must be at least 24h"))
          s [] 0
      else
        match M.atomicCheckAndLock s fullKey fingerprint cfg.lockTtl with
        | Except.error e => ExecResult.mk (Except.error e) s [] 0
        | Except.ok (CheckStatus.exists_ storedFp res _, s1) =>
          if storedFp ≠ fingerprint then
            ExecResult.mk
              (Except.error (Err.fingerprintMismatch "fingerprint mismatch for key" none))
              s1
              [mkEvent now fullKey Action.fingerprint_mismatch (some fingerprint)
                (some storedFp) opts.metadata]
              0
          else
            ExecResult.mk (Except.ok res) s1
              [mkEvent now fullKey Action.hit (some fingerprint) none opts.metadata] 0
        | Except.ok (CheckStatus.locked, s1) =>
          ExecResult.mk (Except.error (Err.operationInProgress "operation already in progress"))
            s1 [mkEvent now fullKey Action.locked none none opts.metadata] 0
        | Except.ok (CheckStatus.acquired, s1) =>
          let acqEv := mkEvent now fullKey Action.acquired (some fingerprint) none opts.metadata
          let relEv := mkEvent now fullKey Action.lock_released none none opts.metadata
          match handler with
          | HandlerOutcome.success v =>
            match M.commitResult s1 fullKey fingerprint v retentionMs with
            | Except.ok s2 =>
              ExecResult.mk (Except.ok v) (M.releaseLock s2 fullKey)
                [acqEv, mkEvent now fullKey Action.stored (some fingerprint) none opts.metadata,
                 relEv] 1
            | Except.error e =>
              ExecResult.mk (Except.error e) (M.releaseLock s1 fullKey)
                [acqEv, failEvent now fullKey fingerprint opts.metadata e, relEv] 1
          | HandlerOutcome.failure e =>
            ExecResult.mk (Except.error e) (M.releaseLock s1 fullKey)
              [acqEv, failEvent now fullKey fingerprint opts.metadata e, relEv] 1
          | HandlerOutcome.timedOut =>
            let e := Err.handlerTimeout "handler timeout"
            ExecResult.mk (Except.error e) (M.releaseLock s1 fullKey)
              [acqEv, failEvent now fullKey fingerprint opts.metadata e, relEv] 1

/-! ## The in-memory store
(`src/core/src/__tests__/mocks/memory-store.ts`) -/

/-- A stored record of the memory store's `Map`. -/
inductive MemRec (V : Type) where
  | processing (lockTtlMs : Nat) : MemRec V
  | committed (fingerprint : String) (result : V) (createdAt : String) : MemRec V
deriving DecidableEq, Repr

/-- The memory store's `Map<string, …>`, as an insertion-ordered association
list. -/
abbrev MemState (V : Type) : Type := List (String × MemRec V)

/-- `Map.get`. -/
def mget {V : Type} (s : MemState V) (k : String) : Option (MemRec V) :=
  (s.find? (fun kv => kv.1 == k)).map (fun kv => kv.2)

/-- `Map.set`: overwrite in place, or append. -/
def mset {V : Type} (s : MemState V) (k : String) (r : MemRec V) : MemState V :=
  if s.any (fun kv => kv.1 == k) then
    s.map (fun kv => if kv.1 == k then (k, r) else kv)
  else
    s ++ [(k, r)]

/-- `Map.delete`. -/
def mdel {V : Type} (s : MemState V) (k : String) : MemState V :=
  s.filter (fun kv => !(kv.1 == k))

/-- The `MemoryStore` mock as a `StoreModel` (timestamps of records are
placeholders; the `setTimeout` expiry timers are outside the model):
`atomicCheckAndLock` returns `locked` on a `processing` record, the record's
data as `exists` on a `committed` one, and otherwise installs a `processing`
record and acquires; `commitResult` requires a `processing` record;
`releaseLock` deletes only a `processing` record. -/
def memModel {V : Type} : StoreModel (MemState V) V :=
  StoreModel.mk
    (fun s key _fp ttl =>
      match mget s key with
      | some (MemRec.processing _) => Except.ok (CheckStatus.locked, s)
      | some (MemRec.committed f r c) => Except.ok (CheckStatus.exists_ f r c, s)
      | none => Except.ok (CheckStatus.acquired, mset s key (MemRec.processing ttl)))
    (fun s key fp v _ret =>
      match mget s key with
      | some (MemRec.processing _) =>
        Except.ok (mset s key (MemRec.committed fp v "createdAt"))
      | _ => Except.error (Err.generic "Cannot commit: lock not held or expired"))
    (fun s key =>
      match mget s key with
      | some (MemRec.processing _) => mdel s key
      | _ => s)

/-! ## The Redis adapter
(`src/adapters/redis/src/lua.ts` and the `RedisAdapter` class) -/

/-- What Redis holds at the one key a script touches: nothing, a string that
fails `cjson.decode` (or decodes without a `status` field) — `corrupt` —, a
`processing` record, or a `committed` record. -/
inductive RedisVal (V : Type) where
  | corrupt : RedisVal V
  | processing (lockAcquiredAt : String) : RedisVal V
  | committed (fingerprint : String) (result : V) (createdAt : String) : RedisVal V
deriving DecidableEq, Repr

/-- The `CHECK_AND_LOCK` Lua script (`lua.ts` lines 1-38) on the state of its
key.  Note the corrupt branch: the script returns `acquired` *without
writing anything* — the `SET … NX` that installs the `processing` record is
only reached when `GET` returned nil. -/
def luaCheckAndLock {V : Type} (st : Option (RedisVal V)) (now : String) :
    CheckStatus V × Option (RedisVal V) :=
  match st with
  | some RedisVal.corrupt => (CheckStatus.acquired, some RedisVal.corrupt)
  | some (RedisVal.processing t) => (CheckStatus.locked, some (RedisVal.processing t))
  | some (RedisVal.committed f r c) =>
    (CheckStatus.exists_ f r c, some (RedisVal.committed f r c))
  | none => (CheckStatus.acquired, some (RedisVal.processing now))

/-- The `COMMIT_RESULT` Lua script (`lua.ts` lines 40-68): returns `1` and
writes the committed record only when a `processing` record is present;
otherwise returns `0` and leaves the state alone. -/
def luaCommitResult {V : Type} (st : Option (RedisVal V)) (fp : String) (res : V)
    (now : String) : Nat × Option (RedisVal V) :=
  match st with
  | some (RedisVal.processing _) => (1, some (RedisVal.committed fp res now))
  | other => (0, other)

/-- `RedisAdapter.releaseLock` (`src/unnamed/part_002` lines 136-141):
`redis.unlink(key)` — the key is deleted unconditionally, whatever record it
holds. -/
def redisReleaseLock {V : Type} (_st : Option (RedisVal V)) : Option (RedisVal V) :=
  none

/-- A store whose atomic primitive throws `e` (a store that is down at the
probe). -/
def throwingCheckStore (e : Err) {V : Type} : StoreModel Unit V :=
  StoreModel.mk (fun _ _ _ _ => Except.error e) (fun _ _ _ _ _ => Except.error e)
    (fun s _ => s)

/-- A store that acquires and then throws `e` from `commitResult` (a store
that goes away while the lock is held). -/
def throwingCommitStore (e : Err) {V : Type} : StoreModel Unit V :=
  StoreModel.mk (fun s _ _ _ => Except.ok (CheckStatus.acquired, s))
    (fun _ _ _ _ _ => Except.error e) (fun s _ => s)

/-! ## Shared concrete scenario pieces -/

/-- A valid engine configuration (the one the engine test suite uses):
`lockTtl` 30 s, `retention` 24 h, empty key prefix. -/
def cfg0 : EngineCfg := EngineCfg.mk 30000 86400000 ""

/-- Empty per-call options. -/
def opts0 : ExecuteOptions := ExecuteOptions.mk none none none

/-! ## Helper lemmas -/

/-- Every entry surviving `redactMeta` has a key the redaction regex does not
match. -/
theorem sensitiveMatch_false_of_mem_redactMeta {kv : String × String} {md : Meta}
    (h : kv ∈ redactMeta md) : sensitiveMatch kv.1 = false := by
  have h2 := (List.mem_filter.mp h).2
  simpa using h2

/-- The `catch`-block action is `timeout` or `error`, never anything else. -/
theorem failAction_timeout_or_error (e : Err) :
    failAction e = Action.timeout ∨ failAction e = Action.error := by
  cases e <;> simp [failAction]

/-- Metadata safety of an event built by `mkEvent`. -/
theorem mkEvent_meta_safe (ts k : String) (a : Action) (f sf : Option String)
    (md : Option Meta) (kv : String × String)
    (h : kv ∈ (mkEvent ts k a f sf md).metadata.getD []) :
    sensitiveMatch kv.1 = false := by
  cases md with
  | none => simp [mkEvent] at h
  | some m =>
    simp only [mkEvent, Option.map_some', Option.getD_some] at h
    exact sensitiveMatch_false_of_mem_redactMeta h

/-- Metadata safety of an event built by `failEvent`. -/
theorem failEvent_meta_safe (ts k fp : String) (md : Option Meta) (e : Err)
    (kv : String × String)
    (h : kv ∈ (failEvent ts k fp md e).metadata.getD []) :
    sensitiveMatch kv.1 = false := by
  simp only [failEvent, Option.getD_some] at h
  exact sensitiveMatch_false_of_mem_redactMeta h

/-- Every event of an `execute` trace is a regular event (`mkEvent` with one
of the six actions the success paths use) or a `catch`-block event
(`failEvent`), always for the namespaced key and with the caller's metadata
redacted. -/
theorem trace_cases {σ V : Type} (M : StoreModel σ V) (s : σ) (cfg : EngineCfg)
    (key fp : String) (h : HandlerOutcome V) (opts : ExecuteOptions) (now : String)
    (ev : AuditEvent)
    (hev : ev ∈ (execute M s cfg key fp h opts now).trace) :
    (∃ a f sf, ev = mkEvent now (cfg.keyPfx ++ jsTrim key) a f sf opts.metadata ∧
      a ∈ ([Action.hit, Action.fingerprint_mismatch, Action.locked, Action.acquired,
            Action.stored, Action.lock_released] : List Action)) ∨
    (∃ e, ev = failEvent now (cfg.keyPfx ++ jsTrim key) fp opts.metadata e) := by
  simp only [execute] at hev
  split at hev
  · simp at hev
  · split at hev
    · simp at hev
    · split at hev
      · simp at hev
      · split at hev
        · simp at hev
        · split at hev
          · simp only [List.mem_singleton] at hev
            subst hev
            exact Or.inl ⟨Action.fingerprint_mismatch, _, _, rfl, by simp⟩
          · simp only [List.mem_singleton] at hev
            subst hev
            exact Or.inl ⟨Action.hit, _, _, rfl, by simp⟩
        · simp only [List.mem_singleton] at hev
          subst hev
          exact Or.inl ⟨Action.locked, _, _, rfl, by simp⟩
        · split at hev
          · split at hev
            · simp only [List.mem_cons, List.not_mem_nil, or_false] at hev
              rcases hev with rfl | rfl | rfl
              · exact Or.inl ⟨Action.acquired, _, _, rfl, by simp⟩
              · exact Or.inl ⟨Action.stored, _, _, rfl, by simp⟩
              · exact Or.inl ⟨Action.lock_released, _, _, rfl, by simp⟩
            · simp only [List.mem_cons, List.not_mem_nil, or_false] at hev
              rcases hev with rfl | rfl | rfl
              · exact Or.inl ⟨Action.acquired, _, _, rfl, by simp⟩
              · exact Or.inr ⟨_, rfl⟩
              · exact Or.inl ⟨Action.lock_released, _, _, rfl, by simp⟩
          · simp only [List.mem_cons, List.not_mem_nil, or_false] at hev
            rcases hev with rfl | rfl | rfl
            · exact Or.inl ⟨Action.acquired, _, _, rfl, by simp⟩
            · exact Or.inr ⟨_, rfl⟩
            · exact Or.inl ⟨Action.lock_released, _, _, rfl, by simp⟩
          · simp only [List.mem_cons, List.not_mem_nil, or_false] at hev
            rcases hev with rfl | rfl | rfl
            · exact Or.inl ⟨Action.acquired, _, _, rfl, by simp⟩
            · exact Or.inr ⟨_, rfl⟩
            · exact Or.inl ⟨Action.lock_released, _, _, rfl, by simp⟩

/-- The acquired-then-failed audit sequence is one of the permitted shapes,
whichever error reaches the `catch` block. -/
theorem acq_fail_rel_mem (e : Err) :
    [Action.acquired, failAction e, Action.lock_released] ∈
      ([[], [Action.hit], [Action.locked], [Action.fingerprint_mismatch],
        [Action.acquired, Action.stored, Action.lock_released],
        [Action.acquired, Action.timeout, Action.lock_released],
        [Action.acquired, Action.error, Action.lock_released]] : List (List Action)) := by
  cases e <;> simp [failAction]

/-! ## The claims -/

/-- C1: for two sequential `execute` calls with the same key, the same
fingerprint and a succeeding handler (against the in-memory store, from an
empty store), the first call runs the handler once, commits, and returns its
result with audit actions `acquired, stored, lock_released`; the second call
does not invoke the handler and returns the memoized result with audit
action `hit`. -/
theorem execute_duplicate_memoized {V : Type} (key fp : String) (v : V)
    (hkey : jsTrim key ≠ "") :
    (execute memModel ([] : MemState V) cfg0 key fp (HandlerOutcome.success v) opts0 "t1").result
        = Except.ok v ∧
    (execute memModel ([] : MemState V) cfg0 key fp
        (HandlerOutcome.success v) opts0 "t1").handlerRuns = 1 ∧
    (execute memModel ([] : MemState V) cfg0 key fp (HandlerOutcome.success v) opts0 "t1").trace.map
        (fun e => e.action) = [Action.acquired, Action.stored, Action.lock_released] ∧
    (execute memModel
        (execute memModel ([] : MemState V) cfg0 key fp (HandlerOutcome.success v) opts0 "t1").state
        cfg0 key fp (HandlerOutcome.success v) opts0 "t2").result = Except.ok v ∧
    (execute memModel
        (execute memModel ([] : MemState V) cfg0 key fp (HandlerOutcome.success v) opts0 "t1").state
        cfg0 key fp (HandlerOutcome.success v) opts0 "t2").handlerRuns = 0 ∧
    (execute memModel
        (execute memModel ([] : MemState V) cfg0 key fp (HandlerOutcome.success v) opts0 "t1").state
        cfg0 key fp (HandlerOutcome.success v) opts0 "t2").trace.map (fun e => e.action)
        = [Action.hit] := by
  simp [execute, memModel, mget, mset, mdel, cfg0, opts0, hkey, mkEvent]

/-- Witness for C1 at key `k1`, fingerprint `f`, handler result `ok`. -/
theorem execute_duplicate_memoized_witness :
    jsTrim "k1" ≠ "" ∧
    ((execute memModel ([] : MemState String) cfg0 "k1" "f"
        (HandlerOutcome.success "ok") opts0 "t1").result = Except.ok "ok" ∧
      (execute memModel ([] : MemState String) cfg0 "k1" "f"
        (HandlerOutcome.success "ok") opts0 "t1").handlerRuns = 1 ∧
      (execute memModel ([] : MemState String) cfg0 "k1" "f"
        (HandlerOutcome.success "ok") opts0 "t1").trace.map (fun e => e.action)
        = [Action.acquired, Action.stored, Action.lock_released] ∧
      (execute memModel
        (execute memModel ([] : MemState String) cfg0 "k1" "f"
          (HandlerOutcome.success "ok") opts0 "t1").state
        cfg0 "k1" "f" (HandlerOutcome.success "ok") opts0 "t2").result = Except.ok "ok" ∧
      (execute memModel
        (execute memModel ([] : MemState String) cfg0 "k1" "f"
          (HandlerOutcome.success "ok") opts0 "t1").state
        cfg0 "k1" "f" (HandlerOutcome.success "ok") opts0 "t2").handlerRuns = 0 ∧
      (execute memModel
        (execute memModel ([] : MemState String) cfg0 "k1" "f"
          (HandlerOutcome.success "ok") opts0 "t1").state
        cfg0 "k1" "f" (HandlerOutcome.success "ok") opts0 "t2").trace.map (fun e => e.action)
        = [Action.hit]) :=
  ⟨by decide, execute_duplicate_memoized "k1" "f" "ok" (by decide)⟩

/-- C2 (the code at the claim's failing input): with a committed record of
fingerprint `f1` under key `k`, `execute` with fingerprint `f2` does not
invoke the handler, emits one `fingerprint_mismatch` audit event that does
carry the stored fingerprint, and throws a `FingerprintMismatchError` whose
`storedFingerprint` field is `none` — the engine constructs the error with
only a message, so the error does *not* carry the stored fingerprint the
claim requires. -/
theorem mismatch_error_lacks_stored_fingerprint :
    (execute memModel [("k", MemRec.committed "f1" "res" "t")] cfg0 "k" "f2"
        (HandlerOutcome.success "other") opts0 "t3").result
      = Except.error (Err.fingerprintMismatch "fingerprint mismatch for key" none) ∧
    (execute memModel [("k", MemRec.committed "f1" "res" "t")] cfg0 "k" "f2"
        (HandlerOutcome.success "other") opts0 "t3").handlerRuns = 0 ∧
    (execute memModel [("k", MemRec.committed "f1" "res" "t")] cfg0 "k" "f2"
        (HandlerOutcome.success "other") opts0 "t3").trace.map
        (fun e => (e.action, e.storedFingerprint))
      = [(Action.fingerprint_mismatch, some "f1")] ∧
    (none : Option String) ≠ some "f1" :=
  ⟨rfl, rfl, rfl, by decide⟩

/-- C3 (the code at the claim's failing input): when the Redis key holds a
corrupt record, `CHECK_AND_LOCK` answers `acquired` but leaves the corrupt
record in place — no `processing` record is installed — so an immediately
following `CHECK_AND_LOCK` on the same key answers `acquired` again. -/
theorem lua_corrupt_double_acquire :
    (luaCheckAndLock (V := Unit) (some RedisVal.corrupt) "t1").1 = CheckStatus.acquired ∧
    (luaCheckAndLock (V := Unit) (some RedisVal.corrupt) "t1").2 = some RedisVal.corrupt ∧
    (luaCheckAndLock (V := Unit)
        ((luaCheckAndLock (V := Unit) (some RedisVal.corrupt) "t1").2) "t2").1
      = CheckStatus.acquired :=
  ⟨rfl, rfl, rfl⟩

/-- C4 (the code at the claim's failing input): `RedisAdapter.releaseLock`
(`redis.unlink(key)`) deletes a committed record, while the memory store's
`releaseLock` on the same committed record leaves it unchanged, as the store
contract requires. -/
theorem redis_releaseLock_removes_committed :
    redisReleaseLock (V := String) (some (RedisVal.committed "f" "res" "t")) = none ∧
    memModel.releaseLock [("k", MemRec.committed "f" "res" "t")] "k"
      = [("k", MemRec.committed "f" "res" "t")] :=
  ⟨rfl, rfl⟩

/-- C5 (the code at the claim's failing input): on the payload with keys
`"B"` and `"a"`, the source's canonicalization (keys sorted with
`localeCompare`, which under the ICU root locale orders `"a"` before `"B"`)
produces a different canonical text from the spec's lexicographic
(locale-agnostic, code-unit) ascending order, under which `"B"` precedes
`"a"` — so the canonicalization does not sort keys in lexicographic
locale-agnostic order, and the resulting fingerprints diverge from the
spec's. -/
theorem canonicalText_not_lexicographic :
    canonicalText (JValue.obj [("B", JValue.num 1), ("a", JValue.num 2)])
      = "\x7b\"a\":2,\"B\":1\x7d" ∧
    canonicalTextLex (JValue.obj [("B", JValue.num 1), ("a", JValue.num 2)])
      = "\x7b\"B\":1,\"a\":2\x7d" ∧
    canonicalText (JValue.obj [("B", JValue.num 1), ("a", JValue.num 2)])
      ≠ canonicalTextLex (JValue.obj [("B", JValue.num 1), ("a", JValue.num 2)]) :=
  ⟨rfl, rfl, by decide⟩

/-- C6: whatever the store (any `StoreModel`), its state, the configuration,
the key, the fingerprint, the handler outcome and the per-call options, the
audit actions of one `execute` call form one of: the empty sequence (the
call failed validation or the atomic probe itself threw, before any
emission); exactly one of `hit`, `locked`, `fingerprint_mismatch` (the cache
path); or `acquired`, then exactly one of `stored`, `timeout`, `error`, then
`lock_released`.  No other sequence is produced. -/
theorem execute_trace_shapes {σ V : Type} (M : StoreModel σ V) (s : σ) (cfg : EngineCfg)
    (key fp : String) (h : HandlerOutcome V) (opts : ExecuteOptions) (now : String) :
    (execute M s cfg key fp h opts now).trace.map (fun e => e.action) ∈
      ([[], [Action.hit], [Action.locked], [Action.fingerprint_mismatch],
        [Action.acquired, Action.stored, Action.lock_released],
        [Action.acquired, Action.timeout, Action.lock_released],
        [Action.acquired, Action.error, Action.lock_released]] : List (List Action)) := by
  simp only [execute]
  split
  · simp
  · split
    · simp
    · split
      · simp
      · split
        · simp
        · split
          · simp [mkEvent]
          · simp [mkEvent]
        · simp [mkEvent]
        · split
          · split
            · simp [mkEvent]
            · simp only [List.map_cons, List.map_nil, mkEvent, failEvent]
              exact acq_fail_rel_mem _
          · simp only [List.map_cons, List.map_nil, mkEvent, failEvent]
            exact acq_fail_rel_mem _
          · simp only [List.map_cons, List.map_nil, mkEvent, failEvent]
            exact acq_fail_rel_mem _

/-- C7: for every store, state, configuration, key, fingerprint, handler
outcome, options (hence every caller-supplied metadata mapping) and every
event emitted by the call, no key of the event's metadata matches any of the
case-insensitive substring patterns `password`, `token`, `secret`, `card`,
`cvv`, `pin`, `ssn`, `full.?name`, `email`, `phone`. -/
theorem execute_metadata_redacted {σ V : Type} (M : StoreModel σ V) (s : σ)
    (cfg : EngineCfg) (key fp : String) (h : HandlerOutcome V)
    (opts : ExecuteOptions) (now : String) (ev : AuditEvent) (kv : String × String)
    (hev : ev ∈ (execute M s cfg key fp h opts now).trace)
    (hkv : kv ∈ ev.metadata.getD []) :
    containsCI kv.1 "password" = false ∧ containsCI kv.1 "token" = false ∧
    containsCI kv.1 "secret" = false ∧ containsCI kv.1 "card" = false ∧
    containsCI kv.1 "cvv" = false ∧ containsCI kv.1 "pin" = false ∧
    containsCI kv.1 "ssn" = false ∧ fullNameCI kv.1 = false ∧
    containsCI kv.1 "email" = false ∧ containsCI kv.1 "phone" = false := by
  have hs : sensitiveMatch kv.1 = false := by
    rcases trace_cases M s cfg key fp h opts now ev hev with
      ⟨a, f, sf, rfl, _⟩ | ⟨e, rfl⟩
    · exact mkEvent_meta_safe _ _ _ _ _ _ _ hkv
    · exact failEvent_meta_safe _ _ _ _ _ _ hkv
  simp only [sensitiveMatch, Bool.or_eq_false_iff] at hs
  tauto

/-- Witness for C7: a concrete run with metadata holding a harmless key and a
sensitive one; the harmless key of the `acquired` event matches none of the
patterns. -/
theorem execute_metadata_redacted_witness :
    (AuditEvent.mk "t" "k" Action.acquired (some "f") none (some [("requestId", "r1")])
        ∈ (execute memModel ([] : MemState String) cfg0 "k" "f"
            (HandlerOutcome.success "ok")
            (ExecuteOptions.mk none none (some [("requestId", "r1"), ("password", "x")]))
            "t").trace) ∧
    (("requestId", "r1")
        ∈ (AuditEvent.mk "t" "k" Action.acquired (some "f") none
            (some [("requestId", "r1")])).metadata.getD []) ∧
    (containsCI "requestId" "password" = false ∧ containsCI "requestId" "token" = false ∧
      containsCI "requestId" "secret" = false ∧ containsCI "requestId" "card" = false ∧
      containsCI "requestId" "cvv" = false ∧ containsCI "requestId" "pin" = false ∧
      containsCI "requestId" "ssn" = false ∧ fullNameCI "requestId" = false ∧
      containsCI "requestId" "email" = false ∧ containsCI "requestId" "phone" = false) :=
  ⟨by decide, by decide,
    execute_metadata_redacted memModel ([] : MemState String) cfg0 "k" "f"
      (HandlerOutcome.success "ok")
      (ExecuteOptions.mk none none (some [("requestId", "r1"), ("password", "x")])) "t"
      (AuditEvent.mk "t" "k" Action.acquired (some "f") none (some [("requestId", "r1")]))
      ("requestId", "r1") (by decide) (by decide)⟩

/-- C8, counterexample to the claim as stated: an audit emission whose active
sink throws, against a store that implements `recordAudit` — `_audit`'s
single `try` block means the throw skips the `recordAudit` step, so the
store is *not* invoked (while the sink itself was invoked with the redacted
event). -/
theorem audit_sink_throw_skips_recordAudit :
    (auditDispatch (SinkSpec.mk true) none (AuditStoreSpec.mk true false)
        (AuditEvent.mk "t" "k" Action.acquired (some "f") none
          (some [("requestId", "r1"), ("password", "x")]))).recordReceived = none ∧
    (auditDispatch (SinkSpec.mk true) none (AuditStoreSpec.mk true false)
        (AuditEvent.mk "t" "k" Action.acquired (some "f") none
          (some [("requestId", "r1"), ("password", "x")]))).sinkReceived
      = some (AuditEvent.mk "t" "k" Action.acquired (some "f") none
          (some [("requestId", "r1")])) :=
  ⟨rfl, rfl⟩

/-- C8, amended: on every audit emission the engine invokes the active sink
(call-level override if present, else engine-level) with the redacted event
and never lets a failure propagate; when the active sink does not throw and
the store implements `recordAudit`, the store is also invoked with the same
redacted event. -/
theorem audit_dispatch_behaviour (es : SinkSpec) (cs : Option SinkSpec)
    (st : AuditStoreSpec) (ev : AuditEvent) :
    (auditDispatch es cs st ev).sinkReceived = some (redactEvent ev) ∧
    (auditDispatch es cs st ev).threw = false ∧
    (((cs.getD es).throws = false ∧ st.hasRecordAudit = true) →
      (auditDispatch es cs st ev).recordReceived = some (redactEvent ev)) := by
  cases hth : (cs.getD es).throws <;> cases hhr : st.hasRecordAudit <;>
    simp [auditDispatch, hth, hhr, mkEvent]

/-- Witness for C8's amended claim: a non-throwing engine sink, no call
override, a store whose `recordAudit` is present (and itself throws — the
failure is swallowed): the store receives the same redacted event. -/
theorem audit_dispatch_behaviour_witness :
    (((none : Option SinkSpec).getD (SinkSpec.mk false)).throws = false ∧
      (AuditStoreSpec.mk true true).hasRecordAudit = true) ∧
    (auditDispatch (SinkSpec.mk false) none (AuditStoreSpec.mk true true)
        (AuditEvent.mk "t" "k" Action.stored (some "f") none none)).recordReceived
      = some (redactEvent (AuditEvent.mk "t" "k" Action.stored (some "f") none none)) :=
  ⟨by decide,
    (audit_dispatch_behaviour (SinkSpec.mk false) none (AuditStoreSpec.mk true true)
      (AuditEvent.mk "t" "k" Action.stored (some "f") none none)).2.2 (by decide)⟩

/-- C9, counterexample to the claim as stated: a store whose atomic primitive
throws a plain `Error` — `execute` has no wrapping around the probe or the
commit, so the surfaced error is the store's own error, not an error of the
`StoreError` (`IdempotencyInternalError`) kind. -/
theorem store_failure_not_storeError_kind :
    (execute (throwingCheckStore (Err.generic "boom")) () cfg0 "k" "f"
        (HandlerOutcome.success "r") opts0 "t").result
      = Except.error (Err.generic "boom") ∧
    Err.isStoreErrorKind (Err.generic "boom") = false :=
  ⟨rfl, rfl⟩

/-- C9, amended: every failure raised by the store's atomic primitive or by
`commitResult` during `execute` propagates to the caller unchanged — the
engine performs no wrapping (the probe is outside any `try`, and the `catch`
block rethrows the original error after auditing). -/
theorem store_failures_propagate_unchanged {V : Type} (e : Err) (v : V) :
    (execute (throwingCheckStore e) () cfg0 "k" "f"
        (HandlerOutcome.success v) opts0 "t").result = Except.error e ∧
    (execute (throwingCommitStore e) () cfg0 "k" "f"
        (HandlerOutcome.success v) opts0 "t").result = Except.error e :=
  ⟨rfl, rfl⟩

/-- C10: for every store, state, configuration and call, every emitted audit
event's action is one of `hit`, `acquired`, `locked`, `fingerprint_mismatch`,
`stored`, `error`, `timeout`, `lock_released` — in particular the engine
never emits `miss`, though the `AuditEvent` type declares it. -/
theorem execute_never_emits_miss {σ V : Type} (M : StoreModel σ V) (s : σ)
    (cfg : EngineCfg) (key fp : String) (h : HandlerOutcome V)
    (opts : ExecuteOptions) (now : String) (ev : AuditEvent)
    (hev : ev ∈ (execute M s cfg key fp h opts now).trace) :
    ev.action ≠ Action.miss ∧
    ev.action ∈ ([Action.hit, Action.acquired, Action.locked,
      Action.fingerprint_mismatch, Action.stored, Action.error, Action.timeout,
      Action.lock_released] : List Action) := by
  rcases trace_cases M s cfg key fp h opts now ev hev with
    ⟨a, f, sf, rfl, ha⟩ | ⟨e, rfl⟩
  · simp only [List.mem_cons, List.not_mem_nil, or_false] at ha
    rcases ha with rfl | rfl | rfl | rfl | rfl | rfl <;> simp [mkEvent]
  · rcases failAction_timeout_or_error e with ha | ha <;> simp [failEvent, ha]

/-- Witness for C10: the `locked` event of a call that finds a `processing`
record is not a `miss`. -/
theorem execute_never_emits_miss_witness :
    (AuditEvent.mk "t" "k" Action.locked none none none
        ∈ (execute memModel [("k", MemRec.processing 30000)] cfg0 "k" "f"
            (HandlerOutcome.success "ok") opts0 "t").trace) ∧
    ((AuditEvent.mk "t" "k" Action.locked none none none).action ≠ Action.miss ∧
      (AuditEvent.mk "t" "k" Action.locked none none none).action
        ∈ ([Action.hit, Action.acquired, Action.locked, Action.fingerprint_mismatch,
            Action.stored, Action.error, Action.timeout,
            Action.lock_released] : List Action)) :=
  ⟨by decide,
    execute_never_emits_miss memModel [("k", MemRec.processing 30000)] cfg0 "k" "f"
      (HandlerOutcome.success "ok") opts0 "t"
      (AuditEvent.mk "t" "k" Action.locked none none none) (by decide)⟩

end IdempotKit
